import Mathlib

set_option maxRecDepth 8000

/-!
Shallow embedding of the core of the `plane-game` repository for verification.

Terrain side (`src/core/NoiseProvider.ts`, `src/core/TerrainManager.ts`,
`src/core/TerrainChunk.ts`) is embedded over `ℚ` (exact rational arithmetic,
an idealization of JS IEEE doubles) so that concrete runs are decidable.
Physics side (`src/core/PhysicsEngine.ts`) is embedded over `ℝ` because it
uses square roots (vector length, quaternion normalization) and `atan2`.
-/

/-! ## NoiseProvider (src/core/NoiseProvider.ts)

`BiomeParameters`, `MOUNTAINS_BIOME` and `PLAINS_BIOME` are defined in a part
of `types.ts` that is not in the provided sources; their numeric values are
therefore universally quantified here (only `amplitude` and `frequency` are
read by `NoiseProvider`; the color ramp fields are used only by rendering and
are omitted).  `getHeight` consequently takes the two biome parameter records
as explicit arguments where the source reads module constants. -/

structure BiomeParameters where
  amplitude : ℚ
  frequency : ℚ
deriving DecidableEq

/-- State of a `NoiseProvider` instance: the two raw 2D noise channels
(black-box seeded generators in the source, embedded as arbitrary functions)
and the fractal configuration from the constructor. -/
structure NoiseProvider where
  terrainNoise2D : ℚ → ℚ → ℚ
  biomeNoise2D : ℚ → ℚ → ℚ
  octaves : ℕ
  persistence : ℚ
  lacunarity : ℚ
  biomeScale : ℚ

/-- The octave loop of `calculateBiomeHeight` (lines 95-105): iterates
`n` remaining octaves starting from the given `frequency` and `amplitude`,
returning `(total, maxValue)`.  Each layer adds
`noise (worldX * frequency) (worldZ * frequency) * amplitude` to `total` and
`amplitude` to `maxValue`, then multiplies `amplitude` by `persistence` and
`frequency` by `lacunarity`. -/
def fractalAcc (noise : ℚ → ℚ → ℚ) (persistence lacunarity worldX worldZ : ℚ) :
    ℕ → ℚ → ℚ → ℚ × ℚ
  | 0, _, _ => (0, 0)
  | n + 1, frequency, amplitude =>
    let rest := fractalAcc noise persistence lacunarity worldX worldZ n
      (frequency * lacunarity) (amplitude * persistence)
    (noise (worldX * frequency) (worldZ * frequency) * amplitude + rest.1,
      amplitude + rest.2)

/-- The amplitude-normalized fractal sum inside
`NoiseProvider.calculateBiomeHeight`: the octave loop starting at the biome's
base frequency with amplitude 1, then `maxValue === 0 ? 0 : total / maxValue`. -/
def NoiseProvider.normalizedFractal (np : NoiseProvider) (worldX worldZ baseFrequency : ℚ) : ℚ :=
  let tm := fractalAcc np.terrainNoise2D np.persistence np.lacunarity worldX worldZ
    np.octaves baseFrequency 1
  if tm.2 = 0 then 0 else tm.1 / tm.2

/-- `NoiseProvider.calculateBiomeHeight` (lines 89-112): normalized fractal sum
at the biome's own frequency, scaled by the biome's amplitude. -/
def NoiseProvider.calculateBiomeHeight (np : NoiseProvider) (worldX worldZ : ℚ)
    (biome : BiomeParameters) : ℚ :=
  np.normalizedFractal worldX worldZ biome.frequency * biome.amplitude

/-- `NoiseProvider.getBiomeNoise` (lines 46-48). -/
def NoiseProvider.getBiomeNoise (np : NoiseProvider) (worldX worldZ : ℚ) : ℚ :=
  np.biomeNoise2D (worldX / np.biomeScale) (worldZ / np.biomeScale)

/-- `NoiseProvider.getBiomeInfluence` (lines 55-60): maps biome noise from
[-1,1] to [0,1]. -/
def NoiseProvider.getBiomeInfluence (np : NoiseProvider) (worldX worldZ : ℚ) : ℚ :=
  (np.getBiomeNoise worldX worldZ + 1) / 2

/-- `NoiseProvider.getHeight` (lines 69-80), with the two module-level biome
constants passed explicitly (see header note). -/
def NoiseProvider.getHeight (np : NoiseProvider) (mountains plains : BiomeParameters)
    (worldX worldZ : ℚ) : ℚ :=
  let biomeInfluence := np.getBiomeInfluence worldX worldZ
  let mountainHeight := np.calculateBiomeHeight worldX worldZ mountains
  let plainsHeight := np.calculateBiomeHeight worldX worldZ plains
  mountainHeight * (1 - biomeInfluence) + plainsHeight * biomeInfluence

/-- A provider with constant unit terrain noise, a single octave, and a
constant biome-noise channel `c`: used to realize the spec's mocked biome
heights (amplitude 100 and 20 then give biome heights 100 and 20). -/
def mockProvider (c : ℚ) : NoiseProvider :=
  { terrainNoise2D := fun _ _ => 1
    biomeNoise2D := fun _ _ => c
    octaves := 1
    persistence := 1/2
    lacunarity := 2
    biomeScale := 500 }

/-- Mocked mountains biome, height 100 under `mockProvider`. -/
def mockMountains : BiomeParameters := ⟨100, 1⟩

/-- Mocked plains biome, height 20 under `mockProvider`. -/
def mockPlains : BiomeParameters := ⟨20, 1⟩

/-- A provider with three octaves, persistence 1/2 and constant terrain noise
1/2, used as a concrete instance for the fractal-normalization bound. -/
def mockC2Provider : NoiseProvider :=
  { terrainNoise2D := fun _ _ => 1/2
    biomeNoise2D := fun _ _ => 0
    octaves := 3
    persistence := 1/2
    lacunarity := 2
    biomeScale := 500 }

/-! ## TerrainManager (src/core/TerrainManager.ts)

The chunk store is embedded as an insertion-ordered association list of live
chunks (mirroring the JS `Map<string, TerrainChunk>` keyed by `"x,z"`), plus
an event log recording, in call order, the observable effects each claim
speaks about: `TerrainChunk` constructions, `scene.remove` calls and
`chunk.dispose` calls.  The source compares the Euclidean distance
`Math.sqrt(dx*dx+dz*dz)` against nonnegative thresholds (`viewDistance` and
the LOD band distances); since `Real.sqrt` is not computable over `ℚ`, every
such comparison is embedded as the equivalent squared comparison
`dx*dx+dz*dz ≤ t*t` (equivalent because `t ≥ 0`). -/

/-- A live `TerrainChunk` as observed by the manager and the tests: its grid
coordinates (the key) and the resolution it was created with.  Mesh geometry,
noise sampling and colors live on the render boundary and are not modelled. -/
structure TerrainChunk where
  x : ℤ
  z : ℤ
  resolution : ℕ
deriving DecidableEq

/-- The key `"x,z"` of a chunk, embedded as the coordinate pair. -/
def TerrainChunk.key (c : TerrainChunk) : ℤ × ℤ := (c.x, c.z)

/-- Observable effects of a manager operation, in call order. -/
structure TMEvents where
  created : List TerrainChunk
  removed : List (ℤ × ℤ)
  disposed : List (ℤ × ℤ)
deriving DecidableEq

/-- No effects. -/
def TMEvents.none : TMEvents := ⟨[], [], []⟩

/-- Sequencing of two effect logs. -/
def TMEvents.seq (e₁ e₂ : TMEvents) : TMEvents :=
  ⟨e₁.created ++ e₂.created, e₁.removed ++ e₂.removed, e₁.disposed ++ e₂.disposed⟩

/-- The manager's static configuration (lines 310-331): chunk size. -/
def chunkSizeQ : ℚ := 512

/-- The LOD table `lodLevels` (lines 310-315): `(distance, resolution)` bands. -/
def lodLevels : List (ℚ × ℕ) := [(512, 64), (1024, 32), (2048, 16)]

/-- `config.viewDistance` (line 330): largest LOD distance times 1.1. -/
def viewDistance : ℚ := 2048 * 1.1

/-- `viewDistanceChunks` (line 339): `Math.ceil(viewDistance / chunkSize)`. -/
def viewDistanceChunks : ℤ := ⌈viewDistance / chunkSizeQ⌉

/-- `getResolutionForDistance` (lines 358-366) with the distance passed
squared: the first band whose `distance` bound is met wins; beyond all bands
the last band's resolution is used (`getLastD` models the source's direct
index into the last element; the table is never empty). -/
def getResolutionForDistanceSq (distSq : ℚ) : ℕ :=
  match lodLevels.find? (fun level => decide (distSq ≤ level.1 * level.1)) with
  | some level => level.2
  | none => (lodLevels.getLastD (0, 0)).2

/-- The list of integers from `a` to `b` inclusive, in increasing order
(embedding the source's `for (let i = a; i <= b; i++)` loops). -/
def intRange (a b : ℤ) : List ℤ :=
  (List.range (b + 1 - a).toNat).map (fun (i : ℕ) => a + (i : ℤ))

/-- The required-chunk computation of `TerrainManager.update` (lines 373-398):
all grid cells in the `(2*viewDistanceChunks+1)`-square around the player's
cell whose center is within `viewDistance` of the player in the horizontal
plane, each with its required LOD resolution. -/
def requiredChunks (px pz : ℚ) : List TerrainChunk :=
  let playerChunkX : ℤ := ⌊px / chunkSizeQ⌋
  let playerChunkZ : ℤ := ⌊pz / chunkSizeQ⌋
  (intRange (playerChunkX - viewDistanceChunks) (playerChunkX + viewDistanceChunks)).flatMap
    fun (x : ℤ) =>
      (intRange (playerChunkZ - viewDistanceChunks) (playerChunkZ + viewDistanceChunks)).filterMap
        fun (z : ℤ) =>
          let chunkWorldX := ((x : ℚ) + 0.5) * chunkSizeQ
          let chunkWorldZ := ((z : ℚ) + 0.5) * chunkSizeQ
          let dx := px - chunkWorldX
          let dz := pz - chunkWorldZ
          let distSq := dx * dx + dz * dz
          if distSq ≤ viewDistance * viewDistance then
            some ⟨x, z, getResolutionForDistanceSq distSq⟩
          else
            none

/-- `unloadChunk` (lines 504-519): if the key is live, remove its mesh from
the scene, dispose it and delete it from the map; otherwise a no-op. -/
def unloadChunk (s : List TerrainChunk) (k : ℤ × ℤ) : List TerrainChunk × TMEvents :=
  match s.find? (fun c => decide (c.key = k)) with
  | some _ => (s.filter (fun c => decide (c.key ≠ k)), ⟨[], [k], [k]⟩)
  | none => (s, TMEvents.none)

/-- `addChunkToScene` (lines 472-498): if the key is already live return
without creating; otherwise construct a `TerrainChunk`, store it and add its
mesh to the scene. -/
def addChunkToScene (s : List TerrainChunk) (x z : ℤ) (resolution : ℕ) :
    List TerrainChunk × TMEvents :=
  if s.any (fun c => decide (c.key = (x, z))) then
    (s, TMEvents.none)
  else
    (s ++ [⟨x, z, resolution⟩], ⟨[⟨x, z, resolution⟩], [], []⟩)

/-- `updateChunkLOD` (lines 458-463): unload the old chunk, then add a new
one at the new resolution. -/
def updateChunkLOD (s : List TerrainChunk) (x z : ℤ) (resolution : ℕ) :
    List TerrainChunk × TMEvents :=
  let u := unloadChunk s (x, z)
  let a := addChunkToScene u.1 x z resolution
  (a.1, u.2.seq a.2)

/-- The `chunksToUnload.forEach` loop of `update` (lines 426-428). -/
def unloadAll (s : List TerrainChunk) : List (ℤ × ℤ) → List TerrainChunk × TMEvents
  | [] => (s, TMEvents.none)
  | k :: ks =>
    let u := unloadChunk s k
    let rest := unloadAll u.1 ks
    (rest.1, u.2.seq rest.2)

/-- The `chunksToUpdateLOD.forEach` loop of `update` (lines 431-438). -/
def lodUpdateAll (s : List TerrainChunk) : List TerrainChunk → List TerrainChunk × TMEvents
  | [] => (s, TMEvents.none)
  | r :: rs =>
    let u := updateChunkLOD s r.x r.z r.resolution
    let rest := lodUpdateAll u.1 rs
    (rest.1, u.2.seq rest.2)

/-- The `chunksToLoad.forEach` loop of `update` (lines 441-448). -/
def loadAll (s : List TerrainChunk) : List TerrainChunk → List TerrainChunk × TMEvents
  | [] => (s, TMEvents.none)
  | r :: rs =>
    let a := addChunkToScene s r.x r.z r.resolution
    let rest := loadAll a.1 rs
    (rest.1, a.2.seq rest.2)

/-- The `chunksToUnload` set of `update` (line 404): keys of live chunks that
are no longer required, iterated in the live map's insertion order. -/
def chunksToUnloadOf (s required : List TerrainChunk) : List (ℤ × ℤ) :=
  (s.map TerrainChunk.key).filter
    (fun k => decide (¬ required.any (fun r => decide (r.key = k))))

/-- The `chunksToUpdateLOD` map of `update` (lines 409-420): live chunks that
are still required but at a different resolution, iterated in the live map's
order, paired with their required detail. -/
def chunksToUpdateLODOf (s required : List TerrainChunk) : List TerrainChunk :=
  s.filterMap (fun c =>
    match required.find? (fun r => decide (r.key = c.key)) with
    | some r => if c.resolution ≠ r.resolution then some r else none
    | none => none)

/-- The `chunksToLoad` set of `update` (line 407): required but not live. -/
def chunksToLoadOf (s required : List TerrainChunk) : List TerrainChunk :=
  required.filter (fun r => decide (¬ s.any (fun c => decide (c.key = r.key))))

/-- `TerrainManager.update` (lines 372-449): compute the required chunks and
their resolutions, then (1) unload live chunks that are no longer required,
(2) destroy-and-recreate live chunks whose required resolution changed, and
(3) load required chunks that are not live. -/
def TerrainManager.update (s : List TerrainChunk) (px pz : ℚ) :
    List TerrainChunk × TMEvents :=
  let required := requiredChunks px pz
  let u := unloadAll s (chunksToUnloadOf s required)
  let l := lodUpdateAll u.1 (chunksToUpdateLODOf s required)
  let d := loadAll l.1 (chunksToLoadOf s required)
  (d.1, (u.2.seq l.2).seq d.2)

/-- `TerrainManager.initialize` (lines 347-351): one update at the origin. -/
def initTerrain (s : List TerrainChunk) : List TerrainChunk × TMEvents :=
  TerrainManager.update s 0 0

/-- `TerrainManager.reset` (lines 537-546): unload every live chunk (keys
snapshot taken up front), then re-initialize around the origin. -/
def TerrainManager.reset (s : List TerrainChunk) : List TerrainChunk × TMEvents :=
  let keysToUnload := s.map TerrainChunk.key
  let u := unloadAll s keysToUnload
  let i := initTerrain u.1
  (i.1, u.2.seq i.2)

/-- The result of initializing a fresh manager. -/
def initResult : List TerrainChunk × TMEvents := initTerrain []

/-- Whether the center of grid cell `(x, z)` lies within the configured
circular view distance of the origin (squared comparison, see above). -/
def withinViewOfOrigin (x z : ℤ) : Prop :=
  (((x : ℚ) + 0.5) * chunkSizeQ) * (((x : ℚ) + 0.5) * chunkSizeQ) +
    (((z : ℚ) + 0.5) * chunkSizeQ) * (((z : ℚ) + 0.5) * chunkSizeQ) ≤
      viewDistance * viewDistance

instance (x z : ℤ) : Decidable (withinViewOfOrigin x z) := by
  unfold withinViewOfOrigin; infer_instance

/-! ## PhysicsEngine (src/core/PhysicsEngine.ts)

The physics engine is embedded over `ℝ`.  Vector, quaternion and matrix
operations mirror the three.js implementations used by the source
(`Vector3.applyQuaternion`, `Quaternion.multiplyQuaternions`,
`Quaternion.normalize` with its zero-length guard, `Vector3.normalize` via
`divideScalar(length || 1)`, `Matrix3` products).  Definitions are
`noncomputable` where the source uses `Math.sqrt`/`Math.atan2` or branches on
real comparisons. -/

structure Vec3 where
  x : ℝ
  y : ℝ
  z : ℝ

/-- The zero vector. -/
def Vec3.zero : Vec3 := ⟨0, 0, 0⟩

/-- `THREE.Vector3.add`. -/
def Vec3.add (a b : Vec3) : Vec3 := ⟨a.x + b.x, a.y + b.y, a.z + b.z⟩

/-- `THREE.Vector3.negate`. -/
def Vec3.neg (a : Vec3) : Vec3 := ⟨-a.x, -a.y, -a.z⟩

/-- `THREE.Vector3.multiplyScalar`. -/
def Vec3.smul (k : ℝ) (a : Vec3) : Vec3 := ⟨k * a.x, k * a.y, k * a.z⟩

/-- `THREE.Vector3.addScaledVector`. -/
def Vec3.addScaled (a b : Vec3) (k : ℝ) : Vec3 := a.add (Vec3.smul k b)

/-- `THREE.Vector3.dot`. -/
def Vec3.dot (a b : Vec3) : ℝ := a.x * b.x + a.y * b.y + a.z * b.z

/-- `THREE.Vector3.crossVectors`. -/
def Vec3.cross (a b : Vec3) : Vec3 :=
  ⟨a.y * b.z - a.z * b.y, a.z * b.x - a.x * b.z, a.x * b.y - a.y * b.x⟩

/-- `THREE.Vector3.length`. -/
noncomputable def Vec3.length (a : Vec3) : ℝ := Real.sqrt (a.dot a)

/-- `THREE.Vector3.normalize`: `divideScalar(length || 1)` (a zero vector is
left unchanged). -/
noncomputable def Vec3.normalize (a : Vec3) : Vec3 :=
  Vec3.smul (1 / (if a.length = 0 then 1 else a.length)) a

structure Quat where
  x : ℝ
  y : ℝ
  z : ℝ
  w : ℝ

/-- `THREE.Quaternion.multiplyQuaternions a b` (Hamilton product `a * b`). -/
def Quat.mul (a b : Quat) : Quat :=
  ⟨a.x * b.w + a.w * b.x + a.y * b.z - a.z * b.y,
    a.y * b.w + a.w * b.y + a.z * b.x - a.x * b.z,
    a.z * b.w + a.w * b.z + a.x * b.y - a.y * b.x,
    a.w * b.w - a.x * b.x - a.y * b.y - a.z * b.z⟩

/-- Componentwise quaternion addition (the source adds the delta rotation to
the orientation component by component). -/
def Quat.add (a b : Quat) : Quat := ⟨a.x + b.x, a.y + b.y, a.z + b.z, a.w + b.w⟩

/-- Squared length of a quaternion. -/
def Quat.normSq (q : Quat) : ℝ := q.x * q.x + q.y * q.y + q.z * q.z + q.w * q.w

/-- `THREE.Quaternion.length`. -/
noncomputable def Quat.length (q : Quat) : ℝ := Real.sqrt q.normSq

/-- `THREE.Quaternion.normalize`: scales to unit length; a zero quaternion
becomes the identity (0,0,0,1). -/
noncomputable def Quat.normalize (q : Quat) : Quat :=
  if q.length = 0 then ⟨0, 0, 0, 1⟩
  else ⟨q.x * (1 / q.length), q.y * (1 / q.length), q.z * (1 / q.length),
    q.w * (1 / q.length)⟩

/-- `THREE.Vector3.applyQuaternion` (rotation of `v` by `q`). -/
def Vec3.applyQuaternion (v : Vec3) (q : Quat) : Vec3 :=
  let tx := 2 * (q.y * v.z - q.z * v.y)
  let ty := 2 * (q.z * v.x - q.x * v.z)
  let tz := 2 * (q.x * v.y - q.y * v.x)
  ⟨v.x + q.w * tx + q.y * tz - q.z * ty,
    v.y + q.w * ty + q.z * tx - q.x * tz,
    v.z + q.w * tz + q.x * ty - q.y * tx⟩

/-- A 3x3 real matrix, row-major fields. -/
structure Mat3 where
  m11 : ℝ
  m12 : ℝ
  m13 : ℝ
  m21 : ℝ
  m22 : ℝ
  m23 : ℝ
  m31 : ℝ
  m32 : ℝ
  m33 : ℝ

/-- Matrix product (`THREE.Matrix3.multiply`). -/
def Mat3.mul (a b : Mat3) : Mat3 :=
  ⟨a.m11 * b.m11 + a.m12 * b.m21 + a.m13 * b.m31,
    a.m11 * b.m12 + a.m12 * b.m22 + a.m13 * b.m32,
    a.m11 * b.m13 + a.m12 * b.m23 + a.m13 * b.m33,
    a.m21 * b.m11 + a.m22 * b.m21 + a.m23 * b.m31,
    a.m21 * b.m12 + a.m22 * b.m22 + a.m23 * b.m32,
    a.m21 * b.m13 + a.m22 * b.m23 + a.m23 * b.m33,
    a.m31 * b.m11 + a.m32 * b.m21 + a.m33 * b.m31,
    a.m31 * b.m12 + a.m32 * b.m22 + a.m33 * b.m32,
    a.m31 * b.m13 + a.m32 * b.m23 + a.m33 * b.m33⟩

/-- Matrix transpose (`THREE.Matrix3.transpose`). -/
def Mat3.transpose (a : Mat3) : Mat3 :=
  ⟨a.m11, a.m21, a.m31, a.m12, a.m22, a.m32, a.m13, a.m23, a.m33⟩

/-- Matrix-vector product (`THREE.Vector3.applyMatrix3`). -/
def Mat3.apply (a : Mat3) (v : Vec3) : Vec3 :=
  ⟨a.m11 * v.x + a.m12 * v.y + a.m13 * v.z,
    a.m21 * v.x + a.m22 * v.y + a.m23 * v.z,
    a.m31 * v.x + a.m32 * v.y + a.m33 * v.z⟩

/-- The rotation matrix of a quaternion: the 3x3 block of
`THREE.Matrix4.makeRotationFromQuaternion`, as extracted by
`Matrix3.setFromMatrix4`. -/
def Mat3.fromQuat (q : Quat) : Mat3 :=
  let x2 := q.x + q.x
  let y2 := q.y + q.y
  let z2 := q.z + q.z
  let xx := q.x * x2
  let xy := q.x * y2
  let xz := q.x * z2
  let yy := q.y * y2
  let yz := q.y * z2
  let zz := q.z * z2
  let wx := q.w * x2
  let wy := q.w * y2
  let wz := q.w * z2
  ⟨1 - (yy + zz), xy - wz, xz + wy,
    xy + wz, 1 - (xx + zz), yz - wx,
    xz - wy, yz + wx, 1 - (xx + yy)⟩

/-- `PhysicsBody` (lines 8-26): the rigid-body state container.
`inertiaTensor` is the inverse inertia tensor in body space, as in the
source. -/
structure PhysicsBody where
  mass : ℝ
  inertiaTensor : Mat3
  position : Vec3
  orientation : Quat
  linearVelocity : Vec3
  angularVelocity : Vec3
  force : Vec3
  torque : Vec3
  thrustForce : ℝ
  currentThrottle : ℝ

/-- `PhysicsConfig` (lines 31-40). -/
structure PhysicsConfig where
  gravity : Vec3
  wingArea : ℝ
  airDensity : ℝ
  liftSlope : ℝ
  maxCL : ℝ
  baseDragCoefficient : ℝ
  inducedDragFactor : ℝ

/-- The constructor argument of `PhysicsEngine` (lines 48-60): every field
may be absent (`undefined` in TS), in which case `??` substitutes a default. -/
structure PhysicsConfigInput where
  gravity : Option Vec3
  wingArea : Option ℝ
  airDensity : Option ℝ
  liftSlope : Option ℝ
  maxCL : Option ℝ
  baseDragCoefficient : Option ℝ
  inducedDragFactor : Option ℝ

/-- The `PhysicsEngine` constructor (lines 48-60): builds the stored config,
substituting a default for each absent field via `??`.  It performs no
validation and has no failure path. -/
noncomputable def PhysicsEngine.mkConfig (c : PhysicsConfigInput) : PhysicsConfig :=
  { gravity := c.gravity.getD ⟨0, -9.81, 0⟩
    wingArea := c.wingArea.getD 10
    airDensity := c.airDensity.getD 1.225
    liftSlope := c.liftSlope.getD (2 * Real.pi)
    maxCL := c.maxCL.getD 1.2
    baseDragCoefficient := c.baseDragCoefficient.getD 0.02
    inducedDragFactor := c.inducedDragFactor.getD 0.05 }

/-- `PhysicsEngine.applyForce` (lines 148-150): adds a world-space force to
the body's force accumulator. -/
def PhysicsEngine.applyForce (body : PhysicsBody) (force : Vec3) : PhysicsBody :=
  { body with force := body.force.add force }

/-- `PhysicsEngine.applyTorque` (lines 157-159). -/
def PhysicsEngine.applyTorque (body : PhysicsBody) (torque : Vec3) : PhysicsBody :=
  { body with torque := body.torque.add torque }

/-- `Math.atan2 y x`, embedded as the complex argument of `x + y*i`. -/
noncomputable def atan2 (y x : ℝ) : ℝ := Complex.arg { re := x, im := y }

/-- `PhysicsEngine.applyFlightForces` (lines 67-141): accumulates lift and
drag when speed exceeds 0.1, then thrust and gravity, on the body's force
accumulator. -/
noncomputable def PhysicsEngine.applyFlightForces (cfg : PhysicsConfig)
    (body : PhysicsBody) : PhysicsBody :=
  let speed := body.linearVelocity.length
  let speedSq := speed * speed
  let forwardVector := (Vec3.mk 0 0 (-1)).applyQuaternion body.orientation
  let upVector := (Vec3.mk 0 1 0).applyQuaternion body.orientation
  let rightVector := (forwardVector.cross upVector).normalize
  let afterAero :=
    if 0.1 < speed then
      let relativeWind := body.linearVelocity.neg
      let windInPlaneForward := relativeWind.dot forwardVector
      let windInPlaneUp := relativeWind.dot upVector
      let aoa := atan2 windInPlaneUp windInPlaneForward
      let cl := max (-cfg.maxCL) (min cfg.maxCL (cfg.liftSlope * aoa))
      let cd := cfg.baseDragCoefficient + cfg.inducedDragFactor * cl * cl
      let dynamicPressure := 0.5 * cfg.airDensity * speedSq
      let liftMagnitude := cl * dynamicPressure * cfg.wingArea
      let dragMagnitude := cd * dynamicPressure * cfg.wingArea
      let liftDirection := (relativeWind.cross rightVector).normalize
      let dragDirection := relativeWind.normalize
      let liftForce := Vec3.smul liftMagnitude liftDirection
      let dragForce := Vec3.smul dragMagnitude dragDirection
      PhysicsEngine.applyForce (PhysicsEngine.applyForce body liftForce) dragForce
    else
      body
  let thrustMagnitude := body.thrustForce * body.currentThrottle
  let thrustForceVec := Vec3.smul thrustMagnitude forwardVector
  let afterThrust := PhysicsEngine.applyForce afterAero thrustForceVec
  let gravityForce := Vec3.smul body.mass cfg.gravity
  PhysicsEngine.applyForce afterThrust gravityForce

/-- `getWorldInverseInertiaTensor` (lines 232-250):
`R * I_body_inv * R_transpose`. -/
def PhysicsEngine.getWorldInverseInertiaTensor (body : PhysicsBody) : Mat3 :=
  let r := Mat3.fromQuat body.orientation
  let rt := r.transpose
  (r.mul body.inertiaTensor).mul rt

/-- `PhysicsEngine.update` (lines 178-225): Euler integration step.  No-op
when `deltaTime <= 0`; otherwise semi-implicit linear update, angular update
through the world-space inverse inertia tensor, first-order quaternion
orientation update followed by renormalization, then both accumulators are
cleared. -/
noncomputable def PhysicsEngine.update (body : PhysicsBody) (deltaTime : ℝ) :
    PhysicsBody :=
  if deltaTime ≤ 0 then body
  else
    let linearAcceleration := Vec3.smul (1.0 / body.mass) body.force
    let v := body.linearVelocity.addScaled linearAcceleration deltaTime
    let p := body.position.addScaled v deltaTime
    let worldInertiaTensorInv := PhysicsEngine.getWorldInverseInertiaTensor body
    let angularAcceleration := worldInertiaTensorInv.apply body.torque
    let w := body.angularVelocity.addScaled angularAcceleration deltaTime
    let deltaRotation := Quat.mul
      ⟨w.x * deltaTime * 0.5, w.y * deltaTime * 0.5, w.z * deltaTime * 0.5, 0⟩
      body.orientation
    let q := (body.orientation.add deltaRotation).normalize
    { body with
      linearVelocity := v
      position := p
      angularVelocity := w
      orientation := q
      force := Vec3.zero
      torque := Vec3.zero }

/-- A sequence of `update` calls with the given time steps. -/
noncomputable def integrateSeq (body : PhysicsBody) : List ℝ → PhysicsBody
  | [] => body
  | dt :: dts => integrateSeq (PhysicsEngine.update body dt) dts

/-- The `collisionThreshold` buffer of `detectCollisions` (line 279). -/
def collisionThreshold : ℝ := 1.5

/-- `PhysicsEngine.detectCollisions` (lines 274-291): reads the player body's
position, queries the terrain height under it, and invokes the collision
callback exactly when `y < height + collisionThreshold`.  The source only
reads state; the embedded form returns the body (unchanged, first component)
together with whether the callback was invoked (second component). -/
noncomputable def PhysicsEngine.detectCollisions (getTerrainHeight : ℝ → ℝ → ℝ)
    (body : PhysicsBody) : PhysicsBody × Bool :=
  let terrainHeight := getTerrainHeight body.position.x body.position.z
  (body, decide (body.position.y < terrainHeight + collisionThreshold))

/-- A concrete aircraft body (values from `PlayerController`): used by the
witnesses. -/
noncomputable def testBody : PhysicsBody :=
  { mass := 1000
    inertiaTensor := ⟨1, 0, 0, 0, 1, 0, 0, 0, 1⟩
    position := ⟨0, 150, 0⟩
    orientation := ⟨0, 0, 0, 1⟩
    linearVelocity := ⟨0, 0, -200⟩
    angularVelocity := ⟨0, 0, 0⟩
    force := Vec3.zero
    torque := Vec3.zero
    thrustForce := 25000
    currentThrottle := 0.3 }

/-- A body hovering at the given altitude, for the collision boundary
checks. -/
noncomputable def bodyAtY (h : ℝ) : PhysicsBody := { testBody with position := ⟨0, h, 0⟩ }

/-! ### Theorems for C1 and C2 -/

/-- C1: for every coordinate pair the terrain height query returns the linear
interpolation of the two per-biome fractal heights by the biome influence, and
with mocked biome heights 100 (mountains) and 20 (plains): influence 0.5
yields exactly 60, influence 0.99 yields 20.8, influence 0.01 yields 99.2. -/
theorem getHeight_interpolates :
    (∀ (np : NoiseProvider) (mountains plains : BiomeParameters) (x z : ℚ),
      np.getHeight mountains plains x z =
        np.calculateBiomeHeight x z mountains * (1 - np.getBiomeInfluence x z) +
          np.calculateBiomeHeight x z plains * np.getBiomeInfluence x z) ∧
    (mockProvider 0).getHeight mockMountains mockPlains 3 4 = 60 ∧
    (mockProvider (49/50)).getHeight mockMountains mockPlains 3 4 = 20.8 ∧
    (mockProvider (-(49/50))).getHeight mockMountains mockPlains 3 4 = 99.2 := by
  refine ⟨fun np mountains plains x z => rfl, ?_, ?_, ?_⟩ <;> with_unfolding_all decide

/-- The weight sum accumulated by the octave loop is nonnegative whenever the
starting amplitude and the persistence are. -/
theorem fractalAcc_maxValue_nonneg (noise : ℚ → ℚ → ℚ) (p l x z : ℚ) (hp : 0 ≤ p) :
    ∀ (n : ℕ) (f a : ℚ), 0 ≤ a → 0 ≤ (fractalAcc noise p l x z n f a).2 := by
  intro n
  induction n with
  | zero => intro f a _; simp [fractalAcc]
  | succ n ih =>
    intro f a ha
    simpa [fractalAcc] using add_nonneg ha (ih (f * l) (a * p) (mul_nonneg ha hp))

/-- Accumulator bound for the octave loop: with nonnegative persistence and
starting amplitude, and raw noise bounded in [-1,1], the running total is
bounded in absolute value by the running weight sum. -/
theorem fractalAcc_total_bound (noise : ℚ → ℚ → ℚ) (p l x z : ℚ)
    (hp : 0 ≤ p) (hb : ∀ a b : ℚ, -1 ≤ noise a b ∧ noise a b ≤ 1) :
    ∀ (n : ℕ) (f a : ℚ), 0 ≤ a →
      |(fractalAcc noise p l x z n f a).1| ≤ (fractalAcc noise p l x z n f a).2 := by
  intro n
  induction n with
  | zero => intro f a _; simp [fractalAcc]
  | succ n ih =>
    intro f a ha
    have ht := ih (f * l) (a * p) (mul_nonneg ha hp)
    have hn := hb (x * f) (z * f)
    have h1 : |noise (x * f) (z * f) * a| ≤ a := by
      rw [abs_mul, abs_of_nonneg ha]
      calc |noise (x * f) (z * f)| * a ≤ 1 * a :=
            mul_le_mul_of_nonneg_right (abs_le.mpr ⟨hn.1, hn.2⟩) ha
        _ = a := one_mul a
    calc |(fractalAcc noise p l x z (n + 1) f a).1|
        = |noise (x * f) (z * f) * a + (fractalAcc noise p l x z n (f * l) (a * p)).1| := by
          simp [fractalAcc]
      _ ≤ |noise (x * f) (z * f) * a| + |(fractalAcc noise p l x z n (f * l) (a * p)).1| :=
          abs_add _ _
      _ ≤ a + (fractalAcc noise p l x z n (f * l) (a * p)).2 := add_le_add h1 ht
      _ = (fractalAcc noise p l x z (n + 1) f a).2 := by simp [fractalAcc]

/-- With at least one octave and a positive starting amplitude, the weight sum
of the octave loop is positive. -/
theorem fractalAcc_maxValue_pos (noise : ℚ → ℚ → ℚ) (p l x z : ℚ) (hp : 0 ≤ p)
    (n : ℕ) (hn : 1 ≤ n) (f a : ℚ) (ha : 0 < a) :
    0 < (fractalAcc noise p l x z n f a).2 := by
  obtain ⟨m, rfl⟩ := Nat.exists_eq_add_of_le hn
  have hrest := fractalAcc_maxValue_nonneg noise p l x z hp m (f * l) (a * p)
    (mul_nonneg ha.le hp)
  have : (fractalAcc noise p l x z (1 + m) f a).2
      = a + (fractalAcc noise p l x z m (f * l) (a * p)).2 := by
    rw [Nat.add_comm 1 m]
    simp [fractalAcc]
  rw [this]
  exact add_pos_of_pos_of_nonneg ha hrest

/-- C2: for every octave count ≥ 1, persistence in (0,1), and coordinates,
if every raw noise sample lies in [-1,1] then the amplitude-normalized
fractal sum (before multiplication by the biome amplitude) lies in [-1,1]. -/
theorem normalizedFractal_bounded (np : NoiseProvider) (x z f₀ : ℚ)
    (hoct : 1 ≤ np.octaves) (hp0 : 0 < np.persistence) (hp1 : np.persistence < 1)
    (hb : ∀ a b : ℚ, -1 ≤ np.terrainNoise2D a b ∧ np.terrainNoise2D a b ≤ 1) :
    -1 ≤ np.normalizedFractal x z f₀ ∧ np.normalizedFractal x z f₀ ≤ 1 := by
  have hm := fractalAcc_maxValue_pos np.terrainNoise2D np.persistence np.lacunarity x z
    hp0.le np.octaves hoct f₀ 1 one_pos
  have htot := fractalAcc_total_bound np.terrainNoise2D np.persistence np.lacunarity x z
    hp0.le hb np.octaves f₀ 1 one_pos.le
  rw [NoiseProvider.normalizedFractal]
  rw [if_neg (ne_of_gt hm)]
  constructor
  · rw [le_div_iff₀ hm]
    have := (abs_le.mp htot).1
    linarith
  · rw [div_le_one hm]
    exact (abs_le.mp htot).2

/-- Witness for C2 at a concrete provider (3 octaves, persistence 1/2,
constant noise 1/2): the hypotheses hold and the normalized fractal sum is
within [-1,1]. -/
theorem normalizedFractal_bounded_witness :
    (1 ≤ (mockC2Provider).octaves ∧ 0 < (mockC2Provider).persistence ∧
      (mockC2Provider).persistence < 1) ∧
    (-1 ≤ (mockC2Provider).normalizedFractal 5 7 (1/100) ∧
      (mockC2Provider).normalizedFractal 5 7 (1/100) ≤ 1) :=
  ⟨⟨by decide, by with_unfolding_all decide, by with_unfolding_all decide⟩,
    normalizedFractal_bounded mockC2Provider 5 7 (1/100) (by decide)
      (by with_unfolding_all decide) (by with_unfolding_all decide)
      (fun a b => ⟨by norm_num [mockC2Provider], by norm_num [mockC2Provider]⟩)⟩

/-! ### Theorems for C3 (chunk streaming count) -/

/-- Membership in an inclusive integer range. -/
theorem mem_intRange {a b x : ℤ} : x ∈ intRange a b ↔ a ≤ x ∧ x ≤ b := by
  simp only [intRange, List.mem_map, List.mem_range]
  constructor
  · rintro ⟨i, hi, rfl⟩
    omega
  · intro ⟨h1, h2⟩
    exact ⟨(x - a).toNat, by omega, by omega⟩

/-- A coordinate whose cell-center offset passes the squared view-distance
test lies between -4.9 and 3.9. -/
theorem coord_bound {u : ℚ}
    (h : (u + 0.5) * 512 * ((u + 0.5) * 512) ≤ viewDistance * viewDistance) :
    -(49/10) ≤ u ∧ u ≤ 39/10 := by
  unfold viewDistance at h
  constructor
  · nlinarith [mul_self_nonneg ((u + 0.5) * 512 + 2048 * 1.1)]
  · nlinarith [mul_self_nonneg ((u + 0.5) * 512 - 2048 * 1.1)]

/-- Any grid cell whose center is within view distance of the origin lies in
the square [-4,3] × [-4,3]. -/
theorem withinView_bounds {x z : ℤ} (h : withinViewOfOrigin x z) :
    (-4 ≤ x ∧ x ≤ 3) ∧ (-4 ≤ z ∧ z ≤ 3) := by
  unfold withinViewOfOrigin chunkSizeQ at h
  have hzsq : 0 ≤ (((z : ℚ) + 0.5) * 512) * (((z : ℚ) + 0.5) * 512) :=
    mul_self_nonneg _
  have hxsq : 0 ≤ (((x : ℚ) + 0.5) * 512) * (((x : ℚ) + 0.5) * 512) :=
    mul_self_nonneg _
  have hx := coord_bound (u := (x : ℚ)) (by linarith)
  have hz := coord_bound (u := (z : ℚ)) (by linarith)
  constructor
  · constructor
    · by_contra hc
      have h5 : x ≤ -5 := by omega
      have : (x : ℚ) ≤ -5 := by exact_mod_cast h5
      linarith [hx.1]
    · by_contra hc
      have h4 : (4 : ℤ) ≤ x := by omega
      have : (4 : ℚ) ≤ (x : ℚ) := by exact_mod_cast h4
      linarith [hx.2]
  · constructor
    · by_contra hc
      have h5 : z ≤ -5 := by omega
      have : (z : ℚ) ≤ -5 := by exact_mod_cast h5
      linarith [hz.1]
    · by_contra hc
      have h4 : (4 : ℤ) ≤ z := by omega
      have : (4 : ℚ) ≤ (z : ℚ) := by exact_mod_cast h4
      linarith [hz.2]

/-- Every cell of the [-4,3] square whose center passes the view-distance
test is loaded by the initial update. -/
theorem withinView_mem_init :
    ∀ x ∈ intRange (-4) 3, ∀ z ∈ intRange (-4) 3, withinViewOfOrigin x z →
      (x, z) ∈ initResult.1.map TerrainChunk.key := by
  with_unfolding_all decide

/-- Every chunk loaded by the initial update has its center within the
circular view distance of the origin. -/
theorem mem_init_withinView :
    ∀ c ∈ initResult.1, withinViewOfOrigin c.x c.z := by
  with_unfolding_all decide

/-- C3: with chunk size 512 and view distance 2048 * 1.1 = 2252.8, the
streaming update run at the origin on a fresh store constructs exactly 60
chunks and leaves exactly 60 chunks live; the live keys are exactly the grid
cells whose center lies within the circular view distance of the origin; and
the corner cell (5,5) of the bounding square is not loaded. -/
theorem chunk_streaming_count :
    initResult.2.created.length = 60 ∧
    initResult.1.length = 60 ∧
    (∀ x z : ℤ, (x, z) ∈ initResult.1.map TerrainChunk.key ↔ withinViewOfOrigin x z) ∧
    (5, 5) ∉ initResult.1.map TerrainChunk.key := by
  refine ⟨by with_unfolding_all decide, by with_unfolding_all decide, fun x z => ?_,
    by with_unfolding_all decide⟩
  constructor
  · intro hmem
    obtain ⟨c, hc, hkey⟩ := List.mem_map.mp hmem
    have := mem_init_withinView c hc
    obtain ⟨hx, hz⟩ : c.x = x ∧ c.z = z := by
      unfold TerrainChunk.key at hkey
      exact ⟨congrArg Prod.fst hkey, congrArg Prod.snd hkey⟩
    rwa [hx, hz] at this
  · intro hw
    obtain ⟨⟨hx1, hx2⟩, ⟨hz1, hz2⟩⟩ := withinView_bounds hw
    exact withinView_mem_init x (mem_intRange.mpr ⟨by omega, by omega⟩)
      z (mem_intRange.mpr ⟨by omega, by omega⟩) hw

/-! ### Theorems for C7 (LOD transition idempotence) -/

/-- Filtering by a predicate implied by the search predicate does not change
the result of `find?`. -/
theorem find?_filter_of_imp (p q : TerrainChunk → Bool)
    (h : ∀ a, p a = true → q a = true) :
    ∀ l : List TerrainChunk, (l.filter q).find? p = l.find? p := by
  intro l
  induction l with
  | nil => rfl
  | cons a t ih =>
    cases hq : q a with
    | true =>
      cases hp : p a with
      | true => simp [List.filter_cons, hq, List.find?_cons, hp]
      | false => simp [List.filter_cons, hq, List.find?_cons, hp, ih]
    | false =>
      have hp : p a = false := by
        cases hpa : p a with
        | true => rw [h a hpa] at hq; cases hq
        | false => rfl
      simp [List.filter_cons, hq, List.find?_cons, hp, ih]

/-- Appending an element that fails the search predicate does not change the
result of `find?`. -/
theorem find?_append_singleton (p : TerrainChunk → Bool) (e : TerrainChunk)
    (he : p e = false) :
    ∀ l : List TerrainChunk, (l ++ [e]).find? p = l.find? p := by
  intro l
  induction l with
  | nil => simp [List.find?, he]
  | cons a t ih =>
    cases hp : p a with
    | true => simp [List.find?_cons, hp]
    | false => simpa [List.find?_cons, hp] using ih

/-- `unloadChunk` at a different key leaves lookups at `k` unchanged and
emits no event for `k`. -/
theorem unloadChunk_other_key (s : List TerrainChunk) (k' k : ℤ × ℤ) (hne : k ≠ k') :
    (unloadChunk s k').1.find? (fun c => decide (c.key = k)) =
      s.find? (fun c => decide (c.key = k)) ∧
    k ∉ (unloadChunk s k').2.removed ∧ k ∉ (unloadChunk s k').2.disposed ∧
    (unloadChunk s k').2.created = [] := by
  unfold unloadChunk
  cases h : s.find? (fun c => decide (c.key = k')) with
  | none => simp [TMEvents.none]
  | some c =>
    refine ⟨?_, by simpa using hne, by simpa using hne, rfl⟩
    apply find?_filter_of_imp
    intro a ha
    simp only [decide_eq_true_eq] at ha ⊢
    rw [ha]
    exact hne

/-- `addChunkToScene` at a different key leaves lookups at `k` unchanged and
creates no chunk with key `k`. -/
theorem addChunkToScene_other_key (s : List TerrainChunk) (x z : ℤ) (r : ℕ)
    (k : ℤ × ℤ) (hne : (x, z) ≠ k) :
    (addChunkToScene s x z r).1.find? (fun c => decide (c.key = k)) =
      s.find? (fun c => decide (c.key = k)) ∧
    (∀ cc ∈ (addChunkToScene s x z r).2.created, cc.key ≠ k) ∧
    (addChunkToScene s x z r).2.removed = [] ∧
    (addChunkToScene s x z r).2.disposed = [] := by
  unfold addChunkToScene
  cases h : s.any (fun c => decide (c.key = (x, z))) with
  | true => simp [TMEvents.none]
  | false =>
    refine ⟨?_, ?_, rfl, rfl⟩
    · apply find?_append_singleton
      simpa [TerrainChunk.key] using hne
    · intro cc hcc
      simp at hcc
      subst hcc
      simpa [TerrainChunk.key] using hne

/-- `unloadAll` over keys not containing `k` leaves lookups at `k` unchanged
and emits no event for `k`. -/
theorem unloadAll_other_keys (k : ℤ × ℤ) :
    ∀ (ks : List (ℤ × ℤ)) (s : List TerrainChunk), k ∉ ks →
      (unloadAll s ks).1.find? (fun c => decide (c.key = k)) =
        s.find? (fun c => decide (c.key = k)) ∧
      k ∉ (unloadAll s ks).2.removed ∧ k ∉ (unloadAll s ks).2.disposed ∧
      (unloadAll s ks).2.created = [] := by
  intro ks
  induction ks with
  | nil => intro s _; exact ⟨rfl, by simp [unloadAll, TMEvents.none], by
      simp [unloadAll, TMEvents.none], rfl⟩
  | cons k' ks ih =>
    intro s hk
    have hne : k ≠ k' := fun h => hk (h ▸ List.mem_cons_self k' ks)
    have h1 := unloadChunk_other_key s k' k hne
    have h2 := ih (unloadChunk s k').1 (fun h => hk (List.mem_cons_of_mem k' h))
    refine ⟨h2.1.trans h1.1, ?_, ?_, ?_⟩
    · simp only [unloadAll, TMEvents.seq, List.mem_append]
      rintro (h | h)
      · exact h1.2.1 h
      · exact h2.2.1 h
    · simp only [unloadAll, TMEvents.seq, List.mem_append]
      rintro (h | h)
      · exact h1.2.2.1 h
      · exact h2.2.2.1 h
    · simp only [unloadAll, TMEvents.seq]
      rw [h1.2.2.2, h2.2.2.2]
      rfl

/-- `lodUpdateAll` over required entries whose keys differ from `k` leaves
lookups at `k` unchanged and emits no event for `k`. -/
theorem lodUpdateAll_other_keys (k : ℤ × ℤ) :
    ∀ (rs : List TerrainChunk) (s : List TerrainChunk), (∀ r ∈ rs, r.key ≠ k) →
      (lodUpdateAll s rs).1.find? (fun c => decide (c.key = k)) =
        s.find? (fun c => decide (c.key = k)) ∧
      k ∉ (lodUpdateAll s rs).2.removed ∧ k ∉ (lodUpdateAll s rs).2.disposed ∧
      (∀ cc ∈ (lodUpdateAll s rs).2.created, cc.key ≠ k) := by
  intro rs
  induction rs with
  | nil =>
    intro s _
    exact ⟨rfl, by simp [lodUpdateAll, TMEvents.none], by
      simp [lodUpdateAll, TMEvents.none], by simp [lodUpdateAll, TMEvents.none]⟩
  | cons r rs ih =>
    intro s hk
    have hrk : r.key ≠ k := hk r (List.mem_cons_self r rs)
    have hne : k ≠ (r.x, r.z) := fun h => hrk (by simpa [TerrainChunk.key] using h.symm)
    have hu := unloadChunk_other_key s (r.x, r.z) k hne
    have ha := addChunkToScene_other_key (unloadChunk s (r.x, r.z)).1 r.x r.z
      r.resolution k (fun h => hne h.symm)
    have h2 := ih ((updateChunkLOD s r.x r.z r.resolution).1)
      (fun r' hr' => hk r' (List.mem_cons_of_mem r hr'))
    have hstate : (updateChunkLOD s r.x r.z r.resolution).1.find?
        (fun c => decide (c.key = k)) = s.find? (fun c => decide (c.key = k)) := by
      unfold updateChunkLOD
      exact ha.1.trans hu.1
    refine ⟨h2.1.trans hstate, ?_, ?_, ?_⟩
    · simp only [lodUpdateAll, updateChunkLOD, TMEvents.seq, List.mem_append]
      rintro ((h | h) | h)
      · exact hu.2.1 h
      · rw [ha.2.2.1] at h; cases h
      · exact h2.2.1 h
    · simp only [lodUpdateAll, updateChunkLOD, TMEvents.seq, List.mem_append]
      rintro ((h | h) | h)
      · exact hu.2.2.1 h
      · rw [ha.2.2.2] at h; cases h
      · exact h2.2.2.1 h
    · intro cc
      simp only [lodUpdateAll, updateChunkLOD, TMEvents.seq, List.mem_append]
      rintro ((h | h) | h)
      · rw [hu.2.2.2] at h; cases h
      · exact ha.2.1 cc h
      · exact h2.2.2.2 cc h

/-- `loadAll` over required entries whose keys differ from `k` leaves lookups
at `k` unchanged and emits no event for `k`. -/
theorem loadAll_other_keys (k : ℤ × ℤ) :
    ∀ (rs : List TerrainChunk) (s : List TerrainChunk), (∀ r ∈ rs, r.key ≠ k) →
      (loadAll s rs).1.find? (fun c => decide (c.key = k)) =
        s.find? (fun c => decide (c.key = k)) ∧
      (loadAll s rs).2.removed = [] ∧ (loadAll s rs).2.disposed = [] ∧
      (∀ cc ∈ (loadAll s rs).2.created, cc.key ≠ k) := by
  intro rs
  induction rs with
  | nil =>
    intro s _
    exact ⟨rfl, rfl, rfl, by simp [loadAll, TMEvents.none]⟩
  | cons r rs ih =>
    intro s hk
    have hrk : r.key ≠ k := hk r (List.mem_cons_self r rs)
    have ha := addChunkToScene_other_key s r.x r.z r.resolution k
      (fun h => hrk (by simpa [TerrainChunk.key] using h))
    have h2 := ih ((addChunkToScene s r.x r.z r.resolution).1)
      (fun r' hr' => hk r' (List.mem_cons_of_mem r hr'))
    refine ⟨h2.1.trans ha.1, ?_, ?_, ?_⟩
    · simp only [loadAll, TMEvents.seq]
      rw [ha.2.2.1, h2.2.1]
      rfl
    · simp only [loadAll, TMEvents.seq]
      rw [ha.2.2.2, h2.2.2.1]
      rfl
    · intro cc
      simp only [loadAll, TMEvents.seq, List.mem_append]
      rintro (h | h)
      · exact ha.2.1 cc h
      · exact h2.2.2.2 cc h

/-- In a store with no duplicate keys, looking a member's key up finds
exactly that member. -/
theorem find?_key_of_mem (s : List TerrainChunk) (c : TerrainChunk)
    (hnd : (s.map TerrainChunk.key).Nodup) (hmem : c ∈ s) :
    s.find? (fun x => decide (x.key = c.key)) = some c := by
  have hsome : (s.find? (fun x => decide (x.key = c.key))).isSome :=
    List.find?_isSome.mpr ⟨c, hmem, by simp⟩
  obtain ⟨x, hx⟩ := Option.isSome_iff_exists.mp hsome
  have hxk : x.key = c.key := by simpa using List.find?_some hx
  have hxmem : x ∈ s := List.mem_of_find?_eq_some hx
  have : x = c := List.inj_on_of_nodup_map hnd hxmem hmem hxk
  rw [hx, this]

/-- C7: if a live chunk is still within view distance and its required
resolution is unchanged, the streaming update leaves it untouched: it is
still live as the same chunk object, its mesh is not removed from the scene,
it is not disposed, and no chunk is constructed for its grid key. -/
theorem lod_idempotent_update (s : List TerrainChunk) (px pz : ℚ) (c : TerrainChunk)
    (hnd : (s.map TerrainChunk.key).Nodup) (hmem : c ∈ s)
    (hreq : (requiredChunks px pz).find? (fun r => decide (r.key = c.key)) =
      some ⟨c.x, c.z, c.resolution⟩) :
    (TerrainManager.update s px pz).1.find? (fun x => decide (x.key = c.key)) = some c ∧
    c.key ∉ (TerrainManager.update s px pz).2.removed ∧
    c.key ∉ (TerrainManager.update s px pz).2.disposed ∧
    ∀ cc ∈ (TerrainManager.update s px pz).2.created, cc.key ≠ c.key := by
  have hr0mem : (⟨c.x, c.z, c.resolution⟩ : TerrainChunk) ∈ requiredChunks px pz :=
    List.mem_of_find?_eq_some hreq
  have hr0key : (⟨c.x, c.z, c.resolution⟩ : TerrainChunk).key = c.key := rfl
  -- the key is not scheduled for unloading
  have hA : c.key ∉ chunksToUnloadOf s (requiredChunks px pz) := by
    intro hin
    have := (List.mem_filter.mp hin).2
    simp only [decide_eq_true_eq] at this
    exact this (List.any_eq_true.mpr ⟨⟨c.x, c.z, c.resolution⟩, hr0mem, by simp [hr0key]⟩)
  -- no LOD update is scheduled for the key
  have hB : ∀ r ∈ chunksToUpdateLODOf s (requiredChunks px pz), r.key ≠ c.key := by
    intro r hr hkey
    obtain ⟨a, hamem, hfa⟩ := List.mem_filterMap.mp hr
    cases hfind : (requiredChunks px pz).find? (fun r' => decide (r'.key = a.key)) with
    | none => rw [hfind] at hfa; cases hfa
    | some r' =>
      rw [hfind] at hfa
      change (if a.resolution ≠ r'.resolution then some r' else none) = some r at hfa
      by_cases hres : a.resolution ≠ r'.resolution
      · rw [if_pos hres] at hfa
        have hrr' : r' = r := by injection hfa
        subst hrr'
        have hr'key : r'.key = a.key := by simpa using List.find?_some hfind
        have hak : a.key = c.key := by rw [← hr'key]; exact hkey
        have hac : a = c := List.inj_on_of_nodup_map hnd hamem hmem hak
        subst hac
        rw [hak] at hfind
        rw [hreq] at hfind
        have h9 : r' = ⟨a.x, a.z, a.resolution⟩ := by
          injection hfind with h8
          exact h8.symm
        exact hres (by rw [h9])
      · rw [if_neg hres] at hfa; cases hfa
  -- no load is scheduled for the key
  have hC : ∀ r ∈ chunksToLoadOf s (requiredChunks px pz), r.key ≠ c.key := by
    intro r hr hkey
    have := (List.mem_filter.mp hr).2
    simp only [decide_eq_true_eq] at this
    exact this (List.any_eq_true.mpr ⟨c, hmem, by simp [hkey]⟩)
  have hu := unloadAll_other_keys c.key (chunksToUnloadOf s (requiredChunks px pz)) s hA
  have hl := lodUpdateAll_other_keys c.key (chunksToUpdateLODOf s (requiredChunks px pz))
    (unloadAll s (chunksToUnloadOf s (requiredChunks px pz))).1 hB
  have hd := loadAll_other_keys c.key (chunksToLoadOf s (requiredChunks px pz))
    (lodUpdateAll (unloadAll s (chunksToUnloadOf s (requiredChunks px pz))).1
      (chunksToUpdateLODOf s (requiredChunks px pz))).1 hC
  have hbase := find?_key_of_mem s c hnd hmem
  refine ⟨?_, ?_, ?_, ?_⟩
  · show (loadAll _ _).1.find? _ = some c
    rw [hd.1, hl.1, hu.1, hbase]
  · show c.key ∉ ((_ : TMEvents).seq _).removed
    simp only [TMEvents.seq, List.mem_append]
    rintro ((h | h) | h)
    · exact hu.2.1 h
    · exact hl.2.1 h
    · rw [hd.2.1] at h; cases h
  · show c.key ∉ ((_ : TMEvents).seq _).disposed
    simp only [TMEvents.seq, List.mem_append]
    rintro ((h | h) | h)
    · exact hu.2.2.1 h
    · exact hl.2.2.1 h
    · rw [hd.2.2.1] at h; cases h
  · intro cc
    show cc ∈ ((_ : TMEvents).seq _).created → cc.key ≠ c.key
    simp only [TMEvents.seq, List.mem_append]
    rintro ((h | h) | h)
    · rw [hu.2.2.2] at h; cases h
    · exact hl.2.2.2 cc h
    · exact hd.2.2.2 cc h

/-- Witness for C7: the chunk (0,0) is loaded at resolution 64 by the initial
update, and moving the viewpoint to (51.2, 51.2) keeps it required at
resolution 64, so the update leaves it untouched. -/
theorem lod_idempotent_update_witness :
    ((initResult.1.map TerrainChunk.key).Nodup ∧
      (⟨0, 0, 64⟩ : TerrainChunk) ∈ initResult.1 ∧
      (requiredChunks (256/5) (256/5)).find?
        (fun r => decide (r.key = (⟨0, 0, 64⟩ : TerrainChunk).key)) =
          some ⟨0, 0, 64⟩) ∧
    ((TerrainManager.update initResult.1 (256/5) (256/5)).1.find?
        (fun x => decide (x.key = (⟨0, 0, 64⟩ : TerrainChunk).key)) = some ⟨0, 0, 64⟩ ∧
      (⟨0, 0, 64⟩ : TerrainChunk).key ∉
        (TerrainManager.update initResult.1 (256/5) (256/5)).2.removed ∧
      (⟨0, 0, 64⟩ : TerrainChunk).key ∉
        (TerrainManager.update initResult.1 (256/5) (256/5)).2.disposed ∧
      ∀ cc ∈ (TerrainManager.update initResult.1 (256/5) (256/5)).2.created,
        cc.key ≠ (⟨0, 0, 64⟩ : TerrainChunk).key) := by
  have h1 : (initResult.1.map TerrainChunk.key).Nodup := by with_unfolding_all decide
  have h2 : (⟨0, 0, 64⟩ : TerrainChunk) ∈ initResult.1 := by with_unfolding_all decide
  have h3 : (requiredChunks (256/5) (256/5)).find?
      (fun r => decide (r.key = (⟨0, 0, 64⟩ : TerrainChunk).key)) = some ⟨0, 0, 64⟩ := by
    with_unfolding_all decide
  exact ⟨⟨h1, h2, h3⟩,
    lod_idempotent_update initResult.1 (256/5) (256/5) ⟨0, 0, 64⟩ h1 h2 h3⟩

/-! ### Theorems for C8 (reset invariant) -/

/-- `unloadAll` keeps exactly the chunks whose key is not in the unload
list. -/
theorem unloadAll_state (ks : List (ℤ × ℤ)) :
    ∀ s : List TerrainChunk,
      (unloadAll s ks).1 = s.filter (fun c => decide (c.key ∉ ks)) := by
  induction ks with
  | nil =>
    intro s
    simp [unloadAll]
  | cons k ks ih =>
    intro s
    have hcomb : ∀ a : TerrainChunk,
        (decide (a.key ∉ ks) && decide (a.key ≠ k)) = decide (a.key ∉ k :: ks) := by
      intro a
      by_cases h1 : a.key = k <;> by_cases h2 : a.key ∈ ks <;>
        simp [h1, h2, List.mem_cons]
    show (unloadAll (unloadChunk s k).1 ks).1 = _
    rw [ih (unloadChunk s k).1]
    unfold unloadChunk
    cases hfind : s.find? (fun c => decide (c.key = k)) with
    | some c =>
      show (s.filter (fun c => decide (c.key ≠ k))).filter (fun c => decide (c.key ∉ ks)) = _
      rw [List.filter_filter]
      exact List.filter_congr (fun a _ => hcomb a)
    | none =>
      show s.filter (fun c => decide (c.key ∉ ks)) = _
      have hnone := List.find?_eq_none.mp hfind
      refine (List.filter_congr (fun a ha => ?_)).symm
      have hak : a.key ≠ k := by
        intro h
        exact hnone a ha (by simp [h])
      rw [← hcomb a]
      simp [hak]

/-- Unloading a duplicate-free list of keys that are all live disposes each
key exactly once, in order. -/
theorem unloadAll_disposed (ks : List (ℤ × ℤ)) :
    ∀ s : List TerrainChunk, ks.Nodup → (∀ k ∈ ks, ∃ c ∈ s, c.key = k) →
      (unloadAll s ks).2.disposed = ks ∧ (unloadAll s ks).2.removed = ks := by
  induction ks with
  | nil => intro s _ _; exact ⟨rfl, rfl⟩
  | cons k ks ih =>
    intro s hnd hex
    obtain ⟨c, hcmem, hck⟩ := hex k (List.mem_cons_self k ks)
    have hfound : (s.find? (fun c => decide (c.key = k))).isSome :=
      List.find?_isSome.mpr ⟨c, hcmem, by simp [hck]⟩
    obtain ⟨c', hc'⟩ := Option.isSome_iff_exists.mp hfound
    have hknotin : k ∉ ks := (List.nodup_cons.mp hnd).1
    have hrest := ih (unloadChunk s k).1 (List.nodup_cons.mp hnd).2 (by
      intro k' hk'
      obtain ⟨d, hdmem, hdk⟩ := hex k' (List.mem_cons_of_mem k hk')
      refine ⟨d, ?_, hdk⟩
      unfold unloadChunk
      rw [hc']
      show d ∈ s.filter (fun c => decide (c.key ≠ k))
      refine List.mem_filter.mpr ⟨hdmem, ?_⟩
      have : k' ≠ k := fun h => hknotin (h ▸ hk')
      simp [hdk, this])
    have hev : (unloadChunk s k).2 = ⟨[], [k], [k]⟩ := by
      unfold unloadChunk
      rw [hc']
    constructor
    · show ((unloadChunk s k).2.seq (unloadAll (unloadChunk s k).1 ks).2).disposed = k :: ks
      rw [hev]
      simp [TMEvents.seq, hrest.1]
    · show ((unloadChunk s k).2.seq (unloadAll (unloadChunk s k).1 ks).2).removed = k :: ks
      rw [hev]
      simp [TMEvents.seq, hrest.2]

/-- In a duplicate-free key list, a member key is counted exactly once. -/
theorem count_key_eq_one {l : List (ℤ × ℤ)} {k : ℤ × ℤ}
    (hnd : l.Nodup) (hk : k ∈ l) : l.count k = 1 := by
  induction l with
  | nil => cases hk
  | cons a t ih =>
    rcases List.mem_cons.mp hk with h | h
    · subst h
      have : k ∉ t := (List.nodup_cons.mp hnd).1
      simp [List.count_cons, List.count_eq_zero.mpr this]
    · have hne : k ≠ a := by
        intro he
        exact (List.nodup_cons.mp hnd).1 (he ▸ h)
      simp [List.count_cons, ih (List.nodup_cons.mp hnd).2 h, hne]

/-- C8: after `reset()` the live chunk store is exactly what `initialize()`
produces on a fresh store around the origin, and every previously live chunk
is removed from the scene and disposed exactly once. -/
theorem reset_reinitializes (s : List TerrainChunk)
    (hnd : (s.map TerrainChunk.key).Nodup) :
    (TerrainManager.reset s).1 = initResult.1 ∧
    (TerrainManager.reset s).2.disposed = s.map TerrainChunk.key ∧
    (∀ k ∈ s.map TerrainChunk.key, (TerrainManager.reset s).2.disposed.count k = 1) := by
  have hempty : (unloadAll s (s.map TerrainChunk.key)).1 = [] := by
    rw [unloadAll_state]
    refine List.filter_eq_nil_iff.mpr (fun c hc => ?_)
    simp only [decide_eq_true_eq, Decidable.not_not]
    exact List.mem_map_of_mem TerrainChunk.key hc
  have hdisposed := unloadAll_disposed (s.map TerrainChunk.key) s hnd (by
    intro k hk
    obtain ⟨c, hcmem, hck⟩ := List.mem_map.mp hk
    exact ⟨c, hcmem, hck⟩)
  have hinitdisp : initResult.2.disposed = [] := by with_unfolding_all decide
  have hstate : (TerrainManager.reset s).1 = initResult.1 := by
    show (initTerrain (unloadAll s (s.map TerrainChunk.key)).1).1 = initResult.1
    rw [hempty]
    rfl
  have hdisp : (TerrainManager.reset s).2.disposed = s.map TerrainChunk.key := by
    show ((unloadAll s (s.map TerrainChunk.key)).2.seq
      (initTerrain (unloadAll s (s.map TerrainChunk.key)).1).2).disposed = _
    rw [hempty]
    show (unloadAll s (s.map TerrainChunk.key)).2.disposed ++ initResult.2.disposed = _
    rw [hdisposed.1, hinitdisp, List.append_nil]
  refine ⟨hstate, hdisp, fun k hk => ?_⟩
  rw [hdisp]
  exact count_key_eq_one hnd hk

/-- Witness for C8 at the concrete post-initialize store. -/
theorem reset_reinitializes_witness :
    (initResult.1.map TerrainChunk.key).Nodup ∧
    ((TerrainManager.reset initResult.1).1 = initResult.1 ∧
      (TerrainManager.reset initResult.1).2.disposed = initResult.1.map TerrainChunk.key ∧
      (∀ k ∈ initResult.1.map TerrainChunk.key,
        (TerrainManager.reset initResult.1).2.disposed.count k = 1)) := by
  have h1 : (initResult.1.map TerrainChunk.key).Nodup := by with_unfolding_all decide
  exact ⟨h1, reset_reinitializes initResult.1 h1⟩

/-! ### Theorems for C4 (collision boundary) -/

/-- C4: the collision check invokes the callback exactly when the body's y
position is strictly below terrain height plus the 1.5 threshold, it leaves
the body unchanged, and with terrain height 50 a body at y = 51.6 does not
trigger the callback while a body at y = 51.4 does. -/
theorem collision_boundary :
    (∀ (getTerrainHeight : ℝ → ℝ → ℝ) (b : PhysicsBody),
      ((PhysicsEngine.detectCollisions getTerrainHeight b).2 = true ↔
        b.position.y <
          getTerrainHeight b.position.x b.position.z + collisionThreshold) ∧
      (PhysicsEngine.detectCollisions getTerrainHeight b).1 = b) ∧
    (PhysicsEngine.detectCollisions (fun _ _ => 50) (bodyAtY 51.6)).2 = false ∧
    (PhysicsEngine.detectCollisions (fun _ _ => 50) (bodyAtY 51.4)).2 = true := by
  refine ⟨fun getTerrainHeight b =>
    ⟨by simp [PhysicsEngine.detectCollisions], rfl⟩, ?_, ?_⟩
  · simp only [PhysicsEngine.detectCollisions, bodyAtY, collisionThreshold,
      decide_eq_false_iff_not, not_lt]
    norm_num
  · simp only [PhysicsEngine.detectCollisions, bodyAtY, collisionThreshold,
      decide_eq_true_eq]
    norm_num

/-! ### Theorems for C5 and C6 (integrator) -/

/-- Scaling the zero vector gives the zero vector. -/
theorem Vec3.smul_zero_vec (k : ℝ) : Vec3.smul k Vec3.zero = Vec3.zero := by
  simp [Vec3.smul, Vec3.zero]

/-- Adding the zero vector is the identity. -/
theorem Vec3.add_zero_vec (a : Vec3) : a.add Vec3.zero = a := by
  simp [Vec3.add, Vec3.zero]

/-- Every matrix maps the zero vector to the zero vector. -/
theorem Mat3.apply_zero_vec (m : Mat3) : m.apply Vec3.zero = Vec3.zero := by
  simp [Mat3.apply, Vec3.zero]

/-- C5: for a body with zero accumulated force and torque, integration over
dt <= 0 is a no-op on the whole body, and integration over dt > 0 leaves the
linear and angular velocities unchanged, advances the position by
linearVelocity * dt, and updates the orientation by the renormalized
first-order quaternion step of the unchanged angular velocity. -/
theorem integrate_zero_force (b : PhysicsBody) (dt : ℝ)
    (hf : b.force = Vec3.zero) (ht : b.torque = Vec3.zero) :
    (dt ≤ 0 → PhysicsEngine.update b dt = b) ∧
    (0 < dt →
      (PhysicsEngine.update b dt).linearVelocity = b.linearVelocity ∧
      (PhysicsEngine.update b dt).angularVelocity = b.angularVelocity ∧
      (PhysicsEngine.update b dt).position =
        b.position.add (Vec3.smul dt b.linearVelocity) ∧
      (PhysicsEngine.update b dt).orientation =
        (b.orientation.add (Quat.mul
          ⟨b.angularVelocity.x * dt * 0.5, b.angularVelocity.y * dt * 0.5,
            b.angularVelocity.z * dt * 0.5, 0⟩ b.orientation)).normalize) := by
  constructor
  · intro hdt
    simp [PhysicsEngine.update, if_pos hdt]
  · intro hdt
    have hcond : ¬ dt ≤ 0 := not_le.mpr hdt
    have hv : b.linearVelocity.addScaled (Vec3.smul (1.0 / b.mass) b.force) dt =
        b.linearVelocity := by
      rw [hf, Vec3.smul_zero_vec, Vec3.addScaled, Vec3.smul_zero_vec, Vec3.add_zero_vec]
    have hw : b.angularVelocity.addScaled
        ((PhysicsEngine.getWorldInverseInertiaTensor b).apply b.torque) dt =
        b.angularVelocity := by
      rw [ht, Mat3.apply_zero_vec, Vec3.addScaled, Vec3.smul_zero_vec, Vec3.add_zero_vec]
    refine ⟨?_, ?_, ?_, ?_⟩
    · show (if dt ≤ 0 then b else _).linearVelocity = b.linearVelocity
      rw [if_neg hcond]
      exact hv
    · show (if dt ≤ 0 then b else _).angularVelocity = b.angularVelocity
      rw [if_neg hcond]
      exact hw
    · show (if dt ≤ 0 then b else _).position = _
      rw [if_neg hcond]
      show b.position.addScaled
        (b.linearVelocity.addScaled (Vec3.smul (1.0 / b.mass) b.force) dt) dt = _
      rw [hv]
      rfl
    · show (if dt ≤ 0 then b else _).orientation = _
      rw [if_neg hcond]
      show (b.orientation.add (Quat.mul ⟨(b.angularVelocity.addScaled
          ((PhysicsEngine.getWorldInverseInertiaTensor b).apply b.torque) dt).x * dt * 0.5,
          _, _, 0⟩ b.orientation)).normalize = _
      rw [hw]

/-- Witness for C5 at the concrete aircraft body with dt = 1. -/
theorem integrate_zero_force_witness :
    (testBody.force = Vec3.zero ∧ testBody.torque = Vec3.zero) ∧
    (((1 : ℝ) ≤ 0 → PhysicsEngine.update testBody 1 = testBody) ∧
      ((0 : ℝ) < 1 →
        (PhysicsEngine.update testBody 1).linearVelocity = testBody.linearVelocity ∧
        (PhysicsEngine.update testBody 1).angularVelocity = testBody.angularVelocity ∧
        (PhysicsEngine.update testBody 1).position =
          testBody.position.add (Vec3.smul 1 testBody.linearVelocity) ∧
        (PhysicsEngine.update testBody 1).orientation =
          (testBody.orientation.add (Quat.mul
            ⟨testBody.angularVelocity.x * 1 * 0.5, testBody.angularVelocity.y * 1 * 0.5,
              testBody.angularVelocity.z * 1 * 0.5, 0⟩ testBody.orientation)).normalize)) :=
  ⟨⟨rfl, rfl⟩, integrate_zero_force testBody 1 rfl rfl⟩

/-- The squared norm of a quaternion is nonnegative. -/
theorem Quat.normSq_nonneg (q : Quat) : 0 ≤ q.normSq := by
  unfold Quat.normSq
  nlinarith [mul_self_nonneg q.x, mul_self_nonneg q.y, mul_self_nonneg q.z,
    mul_self_nonneg q.w]

/-- Renormalizing any quaternion produces a unit quaternion (the zero
quaternion is replaced by the identity). -/
theorem Quat.normSq_normalize (q : Quat) : q.normalize.normSq = 1 := by
  unfold Quat.normalize
  split_ifs with h
  · show (0 : ℝ) * 0 + 0 * 0 + 0 * 0 + 1 * 1 = 1
    norm_num
  · have hnn : 0 ≤ q.normSq := q.normSq_nonneg
    have hsq : q.length * q.length = q.normSq := Real.mul_self_sqrt hnn
    have hns : q.normSq ≠ 0 := by
      intro h0
      exact h (by rw [Quat.length, h0, Real.sqrt_zero])
    have hl : q.length ≠ 0 := h
    show q.x * (1 / q.length) * (q.x * (1 / q.length)) +
      q.y * (1 / q.length) * (q.y * (1 / q.length)) +
      q.z * (1 / q.length) * (q.z * (1 / q.length)) +
      q.w * (1 / q.length) * (q.w * (1 / q.length)) = 1
    have hexp : q.x * (1 / q.length) * (q.x * (1 / q.length)) +
        q.y * (1 / q.length) * (q.y * (1 / q.length)) +
        q.z * (1 / q.length) * (q.z * (1 / q.length)) +
        q.w * (1 / q.length) * (q.w * (1 / q.length)) =
        q.normSq / (q.length * q.length) := by
      unfold Quat.normSq
      field_simp
    rw [hexp, hsq, div_self hns]

/-- A single integration step keeps the orientation unit-norm: a no-op step
preserves it, and a real step ends in renormalization. -/
theorem update_orientation_normSq (b : PhysicsBody) (dt : ℝ)
    (h : b.orientation.normSq = 1) :
    (PhysicsEngine.update b dt).orientation.normSq = 1 := by
  unfold PhysicsEngine.update
  split_ifs with hdt
  · exact h
  · exact Quat.normSq_normalize _

/-- Any sequence of integration steps preserves unit squared norm of the
orientation. -/
theorem integrateSeq_normSq (dts : List ℝ) :
    ∀ b : PhysicsBody, b.orientation.normSq = 1 →
      (integrateSeq b dts).orientation.normSq = 1 := by
  induction dts with
  | nil => intro b h; exact h
  | cons dt dts ih =>
    intro b h
    exact ih (PhysicsEngine.update b dt) (update_orientation_normSq b dt h)

/-- C6: a body whose orientation starts at unit length still has a unit
orientation after any sequence of integrate calls, because every proper step
renormalizes the orientation after the quaternion-derivative increment. -/
theorem orientation_stays_unit (b : PhysicsBody) (dts : List ℝ)
    (h : b.orientation.length = 1) :
    (integrateSeq b dts).orientation.length = 1 := by
  have h2 : b.orientation.normSq = 1 := by
    have hsq : b.orientation.length * b.orientation.length = b.orientation.normSq :=
      Real.mul_self_sqrt b.orientation.normSq_nonneg
    rw [h, one_mul] at hsq
    exact hsq.symm
  rw [Quat.length, integrateSeq_normSq dts b h2, Real.sqrt_one]

/-- Witness for C6: the identity orientation has unit length, and keeps it
over the step sequence [0.5, -1, 0.25]. -/
theorem orientation_stays_unit_witness :
    testBody.orientation.length = 1 ∧
    (integrateSeq testBody [0.5, -1, 0.25]).orientation.length = 1 := by
  have h : testBody.orientation.length = 1 := by
    show Real.sqrt ((0 : ℝ) * 0 + 0 * 0 + 0 * 0 + 1 * 1) = 1
    norm_num
  exact ⟨h, orientation_stays_unit testBody [0.5, -1, 0.25] h⟩

/-! ### Theorems for C9 (configuration validation) -/

/-- Counterexample for C9: constructing the physics engine with a malformed
configuration (zero wing area) does not fail: it returns an ordinary config
carrying the zero value, and silently substitutes the defaults (air density
1.225, gravity (0,-9.81,0), ...) for the absent fields. -/
theorem config_construction_counterexample :
    PhysicsEngine.mkConfig ⟨none, some 0, none, none, none, none, none⟩ =
      { gravity := ⟨0, -9.81, 0⟩, wingArea := 0, airDensity := 1.225,
        liftSlope := 2 * Real.pi, maxCL := 1.2, baseDragCoefficient := 0.02,
        inducedDragFactor := 0.05 } := rfl

/-- C9 (amended): the `PhysicsEngine` constructor performs no validation:
for any malformed (nonpositive) wing area it still constructs a config
carrying that value unchanged, with the documented defaults substituted for
every absent field; construction never fails. -/
theorem config_no_validation (w : ℝ) (hw : w ≤ 0) :
    PhysicsEngine.mkConfig ⟨none, some w, none, none, none, none, none⟩ =
      { gravity := ⟨0, -9.81, 0⟩, wingArea := w, airDensity := 1.225,
        liftSlope := 2 * Real.pi, maxCL := 1.2, baseDragCoefficient := 0.02,
        inducedDragFactor := 0.05 } := rfl

/-- Witness for C9 (amended) at wing area 0. -/
theorem config_no_validation_witness :
    (0 : ℝ) ≤ 0 ∧
    PhysicsEngine.mkConfig ⟨none, some 0, none, none, none, none, none⟩ =
      { gravity := ⟨0, -9.81, 0⟩, wingArea := 0, airDensity := 1.225,
        liftSlope := 2 * Real.pi, maxCL := 1.2, baseDragCoefficient := 0.02,
        inducedDragFactor := 0.05 } :=
  ⟨le_refl 0, config_no_validation 0 (le_refl 0)⟩

/-! ### Theorems for C10 (applyFlightForces frame effect) -/

/-- C10: `applyFlightForces` modifies only the force accumulator: position,
orientation, linear and angular velocity, mass, inverse inertia tensor,
thrust, throttle and in particular the torque accumulator are unchanged. -/
theorem applyFlightForces_only_force (cfg : PhysicsConfig) (b : PhysicsBody) :
    (PhysicsEngine.applyFlightForces cfg b).position = b.position ∧
    (PhysicsEngine.applyFlightForces cfg b).orientation = b.orientation ∧
    (PhysicsEngine.applyFlightForces cfg b).linearVelocity = b.linearVelocity ∧
    (PhysicsEngine.applyFlightForces cfg b).angularVelocity = b.angularVelocity ∧
    (PhysicsEngine.applyFlightForces cfg b).torque = b.torque ∧
    (PhysicsEngine.applyFlightForces cfg b).mass = b.mass ∧
    (PhysicsEngine.applyFlightForces cfg b).inertiaTensor = b.inertiaTensor ∧
    (PhysicsEngine.applyFlightForces cfg b).thrustForce = b.thrustForce ∧
    (PhysicsEngine.applyFlightForces cfg b).currentThrottle = b.currentThrottle := by
  simp only [PhysicsEngine.applyFlightForces]
  split_ifs <;>
    exact ⟨rfl, rfl, rfl, rfl, rfl, rfl, rfl, rfl, rfl⟩
